import Mathlib

/-!
Shallow embedding of the annotation/telestration engine in `src/index.tsx`
(bolt-try-stream). Numbers (JS doubles) are modelled as exact rationals `ℚ`;
the source only performs field arithmetic and comparisons on them, which the
rational model reproduces exactly. Bitmap contents are modelled by the byte
values the source writes; DOM objects (canvas, video) are modelled by the
numeric fields the source reads from them.
-/

namespace BoltTryStream

/-- Video-space point (source `interface Point`): `x`, `y` plus the optional
chain-ring radius and per-node creation timestamp. The source stores the
radius as a Euclidean distance (`getDistance`, a square root); it is kept
squared here (`rSq`) because square roots of rationals are irrational; every
use of the radius in the embedded code paths is a comparison against a
nonnegative constant, which is embedded as the equivalent comparison of
squares (sqrt is monotone on nonnegative numbers). -/
structure Point where
  x : ℚ
  y : ℚ
  rSq : Option ℚ := none
  timestamp : Option ℚ := none
deriving DecidableEq, Repr

/-- Squared Euclidean distance. The source `getDistance` returns
`sqrt ((x2-x1)^2 + (y2-y1)^2)`; comparisons `getDistance p q < c` (with
`c ≥ 0`) are embedded exactly as `getDistanceSq p q < c^2`. -/
def getDistanceSq (p1 p2 : Point) : ℚ :=
  (p2.x - p1.x) ^ 2 + (p2.y - p1.y) ^ 2

/-- Result of `getVideoLayout` (source lines 143-169): draw rectangle
`x, y, w, h` of the media inside the canvas, plus the video-to-screen scale. -/
structure VideoLayout where
  x : ℚ
  y : ℚ
  w : ℚ
  h : ℚ
  scale : ℚ
deriving DecidableEq, Repr

/-- Embeds `getVideoLayout(canvas, video)`. Inputs are the numeric fields the
source reads: `video.videoWidth`, `video.videoHeight`, `canvas.width`,
`canvas.height`. The JS guard `if (!vw || !vh)` (falsy = zero for a loaded
dimension; unknown dimensions read as 0) is the first branch. `videoAspect`
and `canvasAspect` are the source's `videoRatio` and `canvasRatio`. -/
def getVideoLayout (vw vh cw ch : ℚ) : VideoLayout :=
  if vw = 0 ∨ vh = 0 then { x := 0, y := 0, w := cw, h := ch, scale := 1 }
  else
    let videoAspect := vw / vh
    let canvasAspect := cw / ch
    if canvasAspect > videoAspect then
      let drawH := ch
      let drawW := ch * videoAspect
      { x := (cw - drawW) / 2, y := 0, w := drawW, h := drawH, scale := drawH / vh }
    else
      let drawW := cw
      let drawH := cw / videoAspect
      { x := 0, y := (ch - drawH) / 2, w := drawW, h := drawH, scale := drawW / vw }

/-- Embeds the coordinate inversion of `getVideoSpacePoint` (source lines
1823-1839): `videoX = (screenX - layout.x) / layout.scale`, likewise for `y`. -/
def getVideoSpacePoint (layout : VideoLayout) (screenX screenY : ℚ) : Point :=
  { x := (screenX - layout.x) / layout.scale
    y := (screenY - layout.y) / layout.scale }

end BoltTryStream

namespace BoltTryStream

/-- C1: for every canvas size and media size, `getVideoLayout` is the
contain-fit mapping: the scale is `min (canvasW/mediaW) (canvasH/mediaH)`, the
scaled media rectangle (`w = mediaW·scale`, `h = mediaH·scale`) is centered in
the canvas on both axes, a zero/unknown media dimension yields the
identity-like layout `(0, 0, canvasW, canvasH, scale 1)`, and for media
1920×1080 on a canvas 800×600 the layout is scale `5/12` (within `0.001` of
`0.4167`), draw rect `800×450` at offset `(0, 75)`, with the inverse pointer
map sending screen `(400, 300)` to video `(960, 540)`. -/
theorem getVideoLayout_contain_fit (vw vh cw ch : ℚ)
    (hvw : 0 < vw) (hvh : 0 < vh) (hcw : 0 < cw) (hch : 0 < ch) :
    (getVideoLayout vw vh cw ch).scale = min (cw / vw) (ch / vh) ∧
    (getVideoLayout vw vh cw ch).w = vw * (getVideoLayout vw vh cw ch).scale ∧
    (getVideoLayout vw vh cw ch).h = vh * (getVideoLayout vw vh cw ch).scale ∧
    (getVideoLayout vw vh cw ch).x = (cw - (getVideoLayout vw vh cw ch).w) / 2 ∧
    (getVideoLayout vw vh cw ch).y = (ch - (getVideoLayout vw vh cw ch).h) / 2 ∧
    (∀ cw' ch' : ℚ, getVideoLayout 0 vh cw' ch' = ⟨0, 0, cw', ch', 1⟩ ∧
        getVideoLayout vw 0 cw' ch' = ⟨0, 0, cw', ch', 1⟩) ∧
    getVideoLayout 1920 1080 800 600 = ⟨0, 75, 800, 450, 5/12⟩ ∧
    |(getVideoLayout 1920 1080 800 600).scale - 0.4167| < 0.001 ∧
    getVideoSpacePoint (getVideoLayout 1920 1080 800 600) 400 300 =
      ⟨960, 540, none, none⟩ := by
  have hvw' : vw ≠ 0 := hvw.ne'
  have hvh' : vh ≠ 0 := hvh.ne'
  rcases lt_or_le (vw / vh) (cw / ch) with h | h
  · have e : getVideoLayout vw vh cw ch =
        ⟨(cw - ch * (vw / vh)) / 2, 0, ch * (vw / vh), ch, ch / vh⟩ := by
      simp [getVideoLayout, hvw', hvh', h]
    have hmul : vw * ch < cw * vh := (div_lt_div_iff₀ hvh hch).mp h
    have hmin : ch / vh ≤ cw / vw := by
      rw [div_le_div_iff₀ hvh hvw]; nlinarith
    rw [e]
    refine ⟨(min_eq_right hmin).symm, by field_simp; ring, by field_simp, rfl, by simp,
        fun cw' ch' => ⟨by simp [getVideoLayout], by simp [getVideoLayout]⟩,
        by norm_num [getVideoLayout], by norm_num [getVideoLayout, abs_of_nonneg],
        by norm_num [getVideoSpacePoint, getVideoLayout]⟩
  · have e : getVideoLayout vw vh cw ch =
        ⟨0, (ch - cw / (vw / vh)) / 2, cw, cw / (vw / vh), cw / vw⟩ := by
      simp [getVideoLayout, hvw', hvh', not_lt.mpr h]
    have hmul : cw * vh ≤ vw * ch := (div_le_div_iff₀ hch hvh).mp h
    have hmin : cw / vw ≤ ch / vh := by
      rw [div_le_div_iff₀ hvw hvh]; nlinarith
    rw [e]
    refine ⟨(min_eq_left hmin).symm, by field_simp, by field_simp; ring, by simp, rfl,
        fun cw' ch' => ⟨by simp [getVideoLayout], by simp [getVideoLayout]⟩,
        by norm_num [getVideoLayout], by norm_num [getVideoLayout, abs_of_nonneg],
        by norm_num [getVideoSpacePoint, getVideoLayout]⟩

/-- Witness for `getVideoLayout_contain_fit` at the concrete scenario
media 1920×1080, canvas 800×600. -/
theorem getVideoLayout_contain_fit_witness :
    (getVideoLayout 1920 1080 800 600).scale = min ((800 : ℚ) / 1920) (600 / 1080) ∧
    getVideoSpacePoint (getVideoLayout 1920 1080 800 600) 400 300 =
      ⟨960, 540, none, none⟩ := by
  have h := getVideoLayout_contain_fit 1920 1080 800 600 (by norm_num) (by norm_num)
    (by norm_num) (by norm_num)
  exact ⟨h.1, h.2.2.2.2.2.2.2.2⟩

end BoltTryStream

namespace BoltTryStream

/-- Source `type ToolType` (without the `null` case, which is modelled as
`Option ToolType` where the source allows it). -/
inductive ToolType
  | pen | line | arrow | curvedArrow | circle | polygon | connectedCircle
  | masking | playerMove | spotlight | lens
deriving DecidableEq, Repr

/-- Source `ringConfig` nested object: `{tilt, isFilled?}`. -/
structure RingConfig where
  tilt : ℚ
  isFilled : Option Bool := none
deriving DecidableEq, Repr

/-- Source `interface Rect`: axis-aligned video-space rectangle. -/
structure Rect where
  x : ℚ
  y : ℚ
  w : ℚ
  h : ℚ
deriving DecidableEq, Repr

/-- Source `interface Shape`. Optional TS fields are `Option`s (absent =
`none`). The raster attachments (`img`, `bgImg` bitmaps) and the
spotlight/lens config objects are not modelled: no claim below depends on
their contents, only on which shapes exist and on their geometric fields. -/
structure Shape where
  id : String
  type : ToolType
  points : List Point
  color : String
  strokeWidth : ℚ
  isClosed : Option Bool := none
  isFilled : Option Bool := none
  isDashed : Option Bool := none
  isFreehand : Option Bool := none
  box : Option Rect := none
  timestamp : ℚ
  ringConfig : Option RingConfig := none
deriving DecidableEq, Repr

/-- Default used to model a JS out-of-range index (`undefined`); every indexing
in the embedded code is guarded so the default is never actually read. -/
def dfltShape : Shape :=
  { id := "", type := .pen, points := [], color := "", strokeWidth := 0, timestamp := 0 }

/-- Default `Point` for the same purpose. -/
def dfltPoint : Point := { x := 0, y := 0 }

/-- The undo/redo store: the `shapes` array and the `redoStack` array of the
source, which stores each undone shape as a singleton group (`[last]`). The
end of each list is the top of the corresponding stack, as in the source. -/
structure HistState where
  shapes : List Shape
  redoStack : List (List Shape)
deriving DecidableEq, Repr

/-- Source `addShape` (lines 2097-2101): append the shape and clear redo. -/
def addShape (shape : Shape) (st : HistState) : HistState :=
  { shapes := st.shapes ++ [shape], redoStack := [] }

/-- Source `undo` (lines 2103-2108): no-op on an empty history; otherwise push
`[last]` onto the redo stack and drop the last shape. -/
def undo (st : HistState) : HistState :=
  if st.shapes.isEmpty then st
  else
    { shapes := st.shapes.dropLast
      redoStack := st.redoStack ++ [[st.shapes.getLastD dfltShape]] }

/-- Source `redo` (lines 2110-2116): no-op on an empty redo stack; otherwise
re-append the head of the top redo group and pop the group. -/
def redo (st : HistState) : HistState :=
  if st.redoStack.isEmpty then st
  else
    { shapes := st.shapes ++ [(st.redoStack.getLastD []).headD dfltShape]
      redoStack := st.redoStack.dropLast }

theorem addShape_foldl (ss : List Shape) :
    ∀ l : List Shape,
      List.foldl (fun st s => addShape s st) ⟨l, []⟩ ss = ⟨l ++ ss, []⟩ := by
  induction ss with
  | nil => intro l; simp
  | cons s ss ih =>
      intro l
      rw [List.foldl_cons, show addShape s ⟨l, []⟩ = ⟨l ++ [s], []⟩ from rfl, ih]
      simp

theorem undo_concat (l : List Shape) (a : Shape) (r : List (List Shape)) :
    undo ⟨l ++ [a], r⟩ = ⟨l, r ++ [[a]]⟩ := by
  simp [undo]

theorem undo_iter (l : List Shape) :
    ∀ r : List (List Shape),
      undo^[l.length] ⟨l, r⟩ = ⟨[], r ++ l.reverse.map (fun s => [s])⟩ := by
  induction l using List.reverseRecOn with
  | nil => intro r; simp
  | append_singleton l a ih =>
      intro r
      rw [List.length_append, List.length_singleton, Function.iterate_succ_apply,
        undo_concat, ih]
      simp

theorem redo_pop (l : List Shape) (a : Shape) (r : List (List Shape)) :
    redo ⟨l, r ++ [[a]]⟩ = ⟨l ++ [a], r⟩ := by
  simp [redo]

theorem redo_iter (m : List Shape) :
    ∀ (l : List Shape) (r : List (List Shape)),
      redo^[m.length] ⟨l, r ++ m.reverse.map (fun s => [s])⟩ = ⟨l ++ m, r⟩ := by
  induction m with
  | nil => intro l r; simp
  | cons s m ih =>
      intro l r
      have hrw : r ++ (s :: m).reverse.map (fun s => [s]) =
          (r ++ m.reverse.map (fun s => [s])) ++ [[s]] := by
        simp
      rw [List.length_cons, Function.iterate_succ_apply, hrw, redo_pop, ih]
      simp

/-- C2: starting from an empty history, after adding the shapes `ss` in order,
`ss.length` undos empty the history and leave the redo stack holding the
shapes in reverse order (each as the singleton group the source pushes);
`ss.length` redos from that state restore the original history exactly; and
`addShape` always clears the entire redo stack. -/
theorem history_discipline (ss : List Shape) :
    List.foldl (fun st s => addShape s st) ⟨[], []⟩ ss = ⟨ss, []⟩ ∧
    undo^[ss.length] (⟨ss, []⟩ : HistState) = ⟨[], ss.reverse.map (fun s => [s])⟩ ∧
    redo^[ss.length] (⟨[], ss.reverse.map (fun s => [s])⟩ : HistState) = ⟨ss, []⟩ ∧
    (∀ (st : HistState) (s : Shape), (addShape s st).redoStack = []) := by
  refine ⟨?_, ?_, ?_, fun st s => rfl⟩
  · simpa using addShape_foldl ss []
  · simpa using undo_iter ss []
  · simpa using redo_iter ss [] []

/-- C10: `undo` on an empty shape history and `redo` on an empty redo stack
both leave the state unchanged (no-ops, not errors). -/
theorem undo_redo_empty_noop :
    (∀ r : List (List Shape), undo ⟨[], r⟩ = ⟨[], r⟩) ∧
    (∀ s : List Shape, redo ⟨s, []⟩ = ⟨s, []⟩) := by
  exact ⟨fun r => by simp [undo], fun s => by simp [redo]⟩

end BoltTryStream

namespace BoltTryStream

/-- Source `rgbToHsl` (lines 223-239). Inputs are the raw 0-255 channel
values, scaled into `[0,1]` first. The JS `switch (max)` matches the first of
`r`, `g`, `b` that equals the maximum, embedded as the nested conditional in
the same order. Returns `(hue in degrees, saturation, lightness)`. -/
def rgbToHsl (r0 g0 b0 : ℚ) : ℚ × ℚ × ℚ :=
  let r := r0 / 255
  let g := g0 / 255
  let b := b0 / 255
  let mx := max r (max g b)
  let mn := min r (min g b)
  let l := (mx + mn) / 2
  if mx = mn then (0, 0, l)
  else
    let d := mx - mn
    let s := if l > 1 / 2 then d / (2 - mx - mn) else d / (mx + mn)
    let h :=
      if mx = r then (g - b) / d + (if g < b then 6 else 0)
      else if mx = g then (b - r) / d + 2
      else (r - g) / d + 4
    (h / 6 * 360, s, l)

/-- Per-pixel background ("green") classification of `computeMaskingLayers`
(source lines 1728-1743): hue within the sensitivity-widened band, saturation
at least `sMin`, lightness within `[lMin, lMax]`. -/
def isGreenPixel (sensitivity : ℚ) (r g b : ℕ) : Bool :=
  let hMin := 75 - sensitivity * 0.4
  let hMax := 155 + sensitivity * 0.4
  let sMin : ℚ := 0.15
  let lMin : ℚ := 0.15
  let lMax : ℚ := 0.85
  let hsl := rgbToHsl r g b
  decide (hsl.1 ≥ hMin ∧ hsl.1 ≤ hMax) && decide (hsl.2.1 ≥ sMin) &&
    decide (hsl.2.2 ≥ lMin ∧ hsl.2.2 ≤ lMax)

/-- The bytes `computeMaskingLayers` writes for one pixel into the foreground
image (`fgData`) and the detection overlay image (`ovData`); both images start
zero-initialized (`createImageData`), so unwritten channels are 0. -/
structure MaskedPixel where
  fgR : ℕ
  fgG : ℕ
  fgB : ℕ
  fgA : ℕ
  ovR : ℕ
  ovG : ℕ
  ovB : ℕ
  ovA : ℕ
deriving DecidableEq, Repr

/-- Per-pixel output of `computeMaskingLayers` (source lines 1745-1757). -/
def maskPixel (sensitivity : ℚ) (r g b : ℕ) : MaskedPixel :=
  if isGreenPixel sensitivity r g b then
    { fgR := 0, fgG := 0, fgB := 0, fgA := 0, ovR := 239, ovG := 68, ovB := 68, ovA := 102 }
  else
    { fgR := r, fgG := g, fgB := b, fgA := 255, ovR := 0, ovG := 0, ovB := 0, ovA := 0 }

/-- The background condition exactly as the specification words it: the hue
lies in `[75 - 0.4·sensitivity, 155 + 0.4·sensitivity]` degrees, the
saturation is at least `0.15`, and the lightness lies in `[0.15, 0.85]`
(hue/saturation/lightness of the pixel per `rgbToHsl`). Stated separately
from `isGreenPixel` so the code condition can be compared against it. -/
def specBackground (sensitivity : ℚ) (r g b : ℕ) : Prop :=
  let hsl := rgbToHsl r g b
  (75 - 0.4 * sensitivity ≤ hsl.1 ∧ hsl.1 ≤ 155 + 0.4 * sensitivity) ∧
  0.15 ≤ hsl.2.1 ∧ (0.15 ≤ hsl.2.2 ∧ hsl.2.2 ≤ 0.85)

/-- C3: for every pixel and every sensitivity in 0-100, the code classifies
the pixel as background exactly under the specification's HSL condition; a
background pixel gets foreground alpha 0 and the fixed translucent red
`(239, 68, 68, 102)` in the overlay; a foreground pixel is copied opaque into
the foreground with overlay alpha 0. -/
theorem maskPixel_classification (sensitivity : ℚ) (r g b : ℕ)
    (hs0 : 0 ≤ sensitivity) (hs1 : sensitivity ≤ 100) :
    (isGreenPixel sensitivity r g b = true ↔ specBackground sensitivity r g b) ∧
    (isGreenPixel sensitivity r g b = true →
      maskPixel sensitivity r g b =
        { fgR := 0, fgG := 0, fgB := 0, fgA := 0
          ovR := 239, ovG := 68, ovB := 68, ovA := 102 }) ∧
    (isGreenPixel sensitivity r g b = false →
      maskPixel sensitivity r g b =
        { fgR := r, fgG := g, fgB := b, fgA := 255
          ovR := 0, ovG := 0, ovB := 0, ovA := 0 }) := by
  refine ⟨?_, fun h => by simp [maskPixel, h], fun h => by simp [maskPixel, h]⟩
  have hc : sensitivity * (0.4 : ℚ) = 0.4 * sensitivity := mul_comm _ _
  simp only [isGreenPixel, specBackground, Bool.and_eq_true, decide_eq_true_eq,
    ge_iff_le, hc]
  tauto

/-- Witness for `maskPixel_classification`: sensitivity 50 and the pure-green
pixel `(0, 255, 0)` (hue 120, saturation 1, lightness 1/2) is background. -/
theorem maskPixel_classification_witness :
    (0 : ℚ) ≤ 50 ∧ (50 : ℚ) ≤ 100 ∧ specBackground 50 0 255 0 := by
  have h := maskPixel_classification 50 0 255 0 (by norm_num) (by norm_num)
  exact ⟨by norm_num, by norm_num,
    h.1.mp (by norm_num [isGreenPixel, rgbToHsl, max_def, min_def])⟩

/-- C7: pixel classification depends only on the channel values and the
sensitivity (equal inputs give equal outputs), and it is monotone in the
sensitivity: a pixel classified as background at sensitivity `s1 ≤ s2` is
still background at sensitivity `s2`. -/
theorem classification_deterministic_monotone (s1 s2 : ℚ) (r g b r' g' b' : ℕ)
    (h0 : 0 ≤ s1) (h12 : s1 ≤ s2) (h100 : s2 ≤ 100) :
    (s1 = s2 → r = r' → g = g' → b = b' →
      maskPixel s1 r g b = maskPixel s2 r' g' b') ∧
    (isGreenPixel s1 r g b = true → isGreenPixel s2 r g b = true) := by
  constructor
  · rintro rfl rfl rfl rfl; rfl
  · intro h
    simp only [isGreenPixel, Bool.and_eq_true, decide_eq_true_eq, ge_iff_le] at h ⊢
    obtain ⟨⟨⟨h1, h2⟩, h3⟩, h4⟩ := h
    have hmono : s1 * (0.4 : ℚ) ≤ s2 * 0.4 := by nlinarith
    exact ⟨⟨⟨by linarith, by linarith⟩, h3⟩, h4⟩

/-- Witness for `classification_deterministic_monotone`: the light-green pixel
`(100, 200, 100)` is background at sensitivity 10, hence also at 90. -/
theorem classification_deterministic_monotone_witness :
    isGreenPixel 90 100 200 100 = true := by
  have h := classification_deterministic_monotone 10 90 100 200 100 100 200 100
    (by norm_num) (by norm_num) (by norm_num)
  exact h.2 (by norm_num [isGreenPixel, rgbToHsl, max_def, min_def])

end BoltTryStream

namespace BoltTryStream

/-- The synchronization check of `renderCanvas` (source line 2165):
`maskCache.timestamp !== -1 && Math.abs(maskCache.timestamp - currentVideoTime) < 0.15`.
The timestamp `-1` is the sentinel of an empty/invalidated cache. -/
def isMaskSynced (cacheTimestamp currentVideoTime : ℚ) : Bool :=
  decide (cacheTimestamp ≠ -1) &&
    decide (|cacheTimestamp - currentVideoTime| < 0.15)

/-- Whether `renderCanvas` draws the overlay bitmap this frame (source
line 2167): masking enabled, paused, overlay visible, an overlay bitmap
exists, and the cache is synced. -/
def drawsOverlay (enabled playing showOverlay hasOverlayBitmap : Bool)
    (cacheTimestamp currentVideoTime : ℚ) : Bool :=
  enabled && !playing && showOverlay && hasOverlayBitmap &&
    isMaskSynced cacheTimestamp currentVideoTime

/-- Whether `renderCanvas` draws the foreground bitmap this frame (source
line 2191): masking enabled, paused, a foreground bitmap exists, and the
cache is synced. -/
def drawsForeground (enabled playing hasForegroundBitmap : Bool)
    (cacheTimestamp currentVideoTime : ℚ) : Bool :=
  enabled && !playing && hasForegroundBitmap &&
    isMaskSynced cacheTimestamp currentVideoTime

/-- C4 counterexample: the claim says a cache sampled at video time `10.00` is
valid for every `currentVideoTime` in the closed interval `[9.85, 10.15]`, but
at the endpoint `10.15` itself (which lies in that interval) the code's strict
check `|10 - 10.15| < 0.15` fails, so the cache is treated as invalid. -/
theorem mask_sync_closed_interval_fails :
    ((9.85 : ℚ) ≤ 10.15 ∧ (10.15 : ℚ) ≤ 10.15) ∧
      isMaskSynced 10 10.15 = false := by
  refine ⟨⟨by norm_num, le_refl _⟩, ?_⟩
  simp only [isMaskSynced, Bool.and_eq_false_iff, decide_eq_false_iff_not, not_lt]
  right
  norm_num [abs_of_nonpos]

/-- C4 amended: a cached mask with nonnegative sample time `ts` is treated as
valid exactly when `|ts - currentVideoTime| < 0.15`; when invalid, neither the
overlay nor the foreground bitmap is drawn that frame; a cache sampled at
`10.00` is valid for every `currentVideoTime` in the OPEN interval
`(9.85, 10.15)` and invalid at the endpoints and outside them; in particular
it is valid at `10.149` and invalid at `10.151`. -/
theorem isMaskSynced_amended (ts t : ℚ) (hts : 0 ≤ ts) :
    (isMaskSynced ts t = true ↔ |ts - t| < 0.15) ∧
    (∀ e p so ho hf : Bool, isMaskSynced ts t = false →
      drawsOverlay e p so ho ts t = false ∧ drawsForeground e p hf ts t = false) ∧
    (∀ u : ℚ, 9.85 < u → u < 10.15 → isMaskSynced 10 u = true) ∧
    (∀ u : ℚ, u ≤ 9.85 ∨ 10.15 ≤ u → isMaskSynced 10 u = false) ∧
    isMaskSynced 10 10.149 = true ∧ isMaskSynced 10 10.151 = false := by
  have hne : ts ≠ -1 := by intro h; rw [h] at hts; norm_num at hts
  refine ⟨?_, ?_, ?_, ?_, ?_, ?_⟩
  · simp [isMaskSynced, hne]
  · intro e p so ho hf h
    constructor <;> simp [drawsOverlay, drawsForeground, h]
  · intro u h1 h2
    simp only [isMaskSynced, Bool.and_eq_true, decide_eq_true_eq]
    refine ⟨by norm_num, ?_⟩
    rw [abs_sub_lt_iff]
    constructor <;> norm_num <;> linarith
  · intro u h
    simp only [isMaskSynced, Bool.and_eq_false_iff, decide_eq_false_iff_not, not_lt]
    right
    rcases h with h | h
    · rw [abs_sub_comm, le_abs]
      right
      norm_num
      linarith
    · rw [le_abs]
      right
      norm_num
      linarith
  · simp only [isMaskSynced, Bool.and_eq_true, decide_eq_true_eq]
    refine ⟨by norm_num, by rw [abs_sub_lt_iff]; constructor <;> norm_num⟩
  · simp only [isMaskSynced, Bool.and_eq_false_iff, decide_eq_false_iff_not, not_lt]
    right
    rw [abs_sub_comm, le_abs]
    left
    norm_num

/-- Witness for `isMaskSynced_amended` at `ts = 10`: the boundary-exact pair
from the specification, valid at `10.149`, invalid at `10.151`. -/
theorem isMaskSynced_amended_witness :
    isMaskSynced 10 10.149 = true ∧ isMaskSynced 10 10.151 = false := by
  have h := isMaskSynced_amended 10 10 (by norm_num)
  exact h.2.2.2.2

end BoltTryStream

namespace BoltTryStream

/-- Result of the connected-circle (chain) branch of `finishDrawing` (source
lines 2008-2038): the three transient-state variables it writes plus the shape
it passes to `addShape`, if any. -/
structure ChainFinishResult where
  activePoints : List Point
  isDrawing : Bool
  currentDragStart : Option Point
  emitted : Option Shape
deriving DecidableEq, Repr

/-- Embeds the `tool === 'connected-circle'` branch of `finishDrawing`
(source lines 2008-2038). `now` is `Date.now()`; `color`, `sw`, `tilt`,
`ringFilled` are the ambient `currentColor`, `strokeWidth`,
`ringSettings.tilt`, `ringSettings.isFilled`. Distance comparisons
(`distToStart < 40`, `radius > 5`) are embedded on squared distances; the
accepted node stores the squared radius (see `Point.rSq`). -/
def finishChainDrawing (activePoints : List Point) (isDrawing : Bool)
    (currentDragStart : Option Point) (currentPoint : Point)
    (color : String) (sw tilt : ℚ) (ringFilled : Bool) (now : ℚ) :
    ChainFinishResult :=
  match currentDragStart, isDrawing with
  | some dragStart, true =>
      let radiusSq := getDistanceSq dragStart currentPoint
      if 2 ≤ activePoints.length ∧
          getDistanceSq currentPoint (activePoints.headD dfltPoint) < 40 ^ 2 then
        let newShape : Shape :=
          { id := toString now, type := .connectedCircle, points := activePoints
            color := color, strokeWidth := sw, timestamp := now
            ringConfig := some { tilt := tilt }, isClosed := some true
            isFilled := some ringFilled }
        { activePoints := [], isDrawing := false, currentDragStart := none
          emitted := some newShape }
      else
        let newActive :=
          if 5 ^ 2 < radiusSq then
            activePoints ++
              [{ x := dragStart.x, y := dragStart.y, rSq := some radiusSq
                 timestamp := some now }]
          else activePoints
        { activePoints := newActive, isDrawing := false, currentDragStart := none
          emitted := none }
  | _, _ =>
      { activePoints := activePoints, isDrawing := isDrawing
        currentDragStart := currentDragStart, emitted := none }

/-- Applying an optional emitted shape to the history: `addShape` when a shape
was finalized, identity otherwise. -/
def applyEmit (hist : HistState) (emitted : Option Shape) : HistState :=
  match emitted with
  | some s => addShape s hist
  | none => hist

/-- C5: with at least two accepted chain nodes, finalizing with a click within
40 video-space units of the first node (strict comparison, on squared
distances) emits exactly one shape: it is closed (`isClosed = true`), its
nodes are exactly the accepted ones (the closing click adds no node), the
in-progress points are cleared, and any history grows by exactly that one
shape. -/
theorem chain_closure (activePoints : List Point) (dragStart currentPoint : Point)
    (color : String) (sw tilt : ℚ) (ringFilled : Bool) (now : ℚ)
    (hlen : 2 ≤ activePoints.length)
    (hclose : getDistanceSq currentPoint (activePoints.headD dfltPoint) < 40 ^ 2) :
    ∃ s : Shape,
      (finishChainDrawing activePoints true (some dragStart) currentPoint
          color sw tilt ringFilled now).emitted = some s ∧
      s.isClosed = some true ∧
      s.points = activePoints ∧
      s.points.length = activePoints.length ∧
      (finishChainDrawing activePoints true (some dragStart) currentPoint
          color sw tilt ringFilled now).activePoints = [] ∧
      (∀ hist : HistState,
        (applyEmit hist (finishChainDrawing activePoints true (some dragStart)
            currentPoint color sw tilt ringFilled now).emitted).shapes =
          hist.shapes ++ [s]) := by
  refine ⟨{ id := toString now, type := .connectedCircle, points := activePoints
            color := color, strokeWidth := sw, timestamp := now
            ringConfig := some { tilt := tilt }, isClosed := some true
            isFilled := some ringFilled }, ?_, rfl, rfl, rfl, ?_, ?_⟩ <;>
  · have hclose' : getDistanceSq currentPoint (activePoints.head?.getD dfltPoint) < 40 ^ 2 := by
      simpa using hclose
    simp [finishChainDrawing, applyEmit, addShape, hlen, hclose']

/-- Witness for `chain_closure`: two accepted nodes at `(0,0)` and `(100,0)`,
closing click at `(10, 0)` (squared distance 100 to the first node). -/
theorem chain_closure_witness :
    ∃ s : Shape,
      (finishChainDrawing
          [{ x := 0, y := 0, rSq := some 100, timestamp := some 0 },
           { x := 100, y := 0, rSq := some 100, timestamp := some 1 }]
          true (some { x := 10, y := 0 }) { x := 10, y := 0 }
          "#ef4444" 4 65 false 2 ).emitted = some s ∧
      s.isClosed = some true ∧
      s.points =
        [{ x := 0, y := 0, rSq := some 100, timestamp := some 0 },
         { x := 100, y := 0, rSq := some 100, timestamp := some 1 }] := by
  obtain ⟨s, h1, h2, h3, -, -, -⟩ :=
    chain_closure
      [{ x := 0, y := 0, rSq := some 100, timestamp := some 0 },
       { x := 100, y := 0, rSq := some 100, timestamp := some 1 }]
      { x := 10, y := 0 } { x := 10, y := 0 } "#ef4444" 4 65 false 2
      (by norm_num) (by norm_num [getDistanceSq, dfltPoint])
  exact ⟨s, h1, h2, h3⟩

end BoltTryStream

namespace BoltTryStream

/-- The geometric output of `captureSprite` (source lines 1784-1819): the
sprite and background-patch dimensions (`Math.ceil` of the rect), the
background patch position, and the source box. The pixel copies themselves
(`drawImage`) are not modelled; the claims concern only the geometry. -/
structure SpriteCapture where
  spriteW : ℤ
  spriteH : ℤ
  patchX : ℚ
  patchY : ℚ
  patchW : ℤ
  patchH : ℤ
  box : Rect
deriving DecidableEq, Repr

/-- Embeds `captureSprite(rect)` (source lines 1784-1819). `rect` is in video
space; `videoWidth` is `video.videoWidth`. Returns `none` when the source
returns `null` for a degenerate rect (`w <= 0 || h <= 0`); the source's other
`null` paths (no video element, no 2d context) are environment failures
outside the model. The background x first tries `rect.x + w * 1.5`; if that
patch would end past `videoWidth` it uses `rect.x - w * 1.5`; a negative
result is clamped to 0. -/
def captureSprite (rect : Rect) (videoWidth : ℚ) : Option SpriteCapture :=
  let w : ℤ := ⌈rect.w⌉
  let h : ℤ := ⌈rect.h⌉
  if w ≤ 0 ∨ h ≤ 0 then none
  else
    let bgTry : ℚ := rect.x + (w : ℚ) * 1.5
    let bgShifted : ℚ :=
      if bgTry + (w : ℚ) > videoWidth then rect.x - (w : ℚ) * 1.5 else bgTry
    let bgX : ℚ := if bgShifted < 0 then 0 else bgShifted
    some { spriteW := w, spriteH := h, patchX := bgX, patchY := rect.y
           patchW := w, patchH := h, box := rect }

/-- C6: for a capture rectangle inside the frame (so `rect.x ≥ 0` and positive
size), sprite capture succeeds and the background patch has the sprite's
dimensions and the rectangle's y; its x is `rect.x` shifted right by 1.5× the
(ceiled) width when that patch stays within the right frame boundary, and
otherwise `rect.x` shifted left by 1.5× the width clamped to `x ≥ 0`. -/
theorem captureSprite_background_selection (rect : Rect) (videoWidth : ℚ)
    (hx : 0 ≤ rect.x) (hw : 0 < rect.w) (hh : 0 < rect.h) :
    ∃ c : SpriteCapture,
      captureSprite rect videoWidth = some c ∧
      c.patchW = c.spriteW ∧ c.patchH = c.spriteH ∧ c.patchY = rect.y ∧
      c.box = rect ∧ 0 ≤ c.patchX ∧
      (¬ rect.x + (⌈rect.w⌉ : ℚ) * 1.5 + (⌈rect.w⌉ : ℚ) > videoWidth →
        c.patchX = rect.x + (⌈rect.w⌉ : ℚ) * 1.5) ∧
      (rect.x + (⌈rect.w⌉ : ℚ) * 1.5 + (⌈rect.w⌉ : ℚ) > videoWidth →
        c.patchX = max 0 (rect.x - (⌈rect.w⌉ : ℚ) * 1.5)) := by
  have hwpos : (0 : ℤ) < ⌈rect.w⌉ := Int.ceil_pos.mpr hw
  have hhpos : (0 : ℤ) < ⌈rect.h⌉ := Int.ceil_pos.mpr hh
  have hwq : (0 : ℚ) ≤ (⌈rect.w⌉ : ℚ) := by exact_mod_cast hwpos.le
  have hcond : ¬ (⌈rect.w⌉ ≤ 0 ∨ ⌈rect.h⌉ ≤ 0) := by
    push_neg
    exact ⟨hwpos, hhpos⟩
  rcases le_or_lt (rect.x + (⌈rect.w⌉ : ℚ) * 1.5 + (⌈rect.w⌉ : ℚ)) videoWidth with hfit | hfit
  · have hnotover : ¬ rect.x + (⌈rect.w⌉ : ℚ) * 1.5 + (⌈rect.w⌉ : ℚ) > videoWidth :=
      not_lt.mpr hfit
    have hnn : ¬ rect.x + (⌈rect.w⌉ : ℚ) * 1.5 < 0 := by
      push_neg
      nlinarith
    refine ⟨{ spriteW := ⌈rect.w⌉, spriteH := ⌈rect.h⌉
              patchX := rect.x + (⌈rect.w⌉ : ℚ) * 1.5, patchY := rect.y
              patchW := ⌈rect.w⌉, patchH := ⌈rect.h⌉, box := rect },
        ?_, rfl, rfl, rfl, rfl, ?_, fun _ => rfl, fun hover => absurd hover hnotover⟩
    · simp only [captureSprite, if_neg hcond, if_neg hnotover, if_neg hnn]
    · simp only [not_lt] at hnn
      exact hnn
  · have hover : rect.x + (⌈rect.w⌉ : ℚ) * 1.5 + (⌈rect.w⌉ : ℚ) > videoWidth := hfit
    rcases lt_or_le (rect.x - (⌈rect.w⌉ : ℚ) * 1.5) 0 with hneg | hnneg
    · refine ⟨{ spriteW := ⌈rect.w⌉, spriteH := ⌈rect.h⌉
                patchX := 0, patchY := rect.y
                patchW := ⌈rect.w⌉, patchH := ⌈rect.h⌉, box := rect },
          ?_, rfl, rfl, rfl, rfl, le_refl 0, fun hnot => absurd hover hnot, fun _ => ?_⟩
      · simp only [captureSprite, if_neg hcond, if_pos hover, if_pos hneg]
      · rw [max_eq_left hneg.le]
    · have hnn : ¬ rect.x - (⌈rect.w⌉ : ℚ) * 1.5 < 0 := not_lt.mpr hnneg
      refine ⟨{ spriteW := ⌈rect.w⌉, spriteH := ⌈rect.h⌉
                patchX := rect.x - (⌈rect.w⌉ : ℚ) * 1.5, patchY := rect.y
                patchW := ⌈rect.w⌉, patchH := ⌈rect.h⌉, box := rect },
          ?_, rfl, rfl, rfl, rfl, hnneg, fun hnot => absurd hover hnot, fun _ => ?_⟩
      · simp only [captureSprite, if_neg hcond, if_pos hover, if_neg hnn]
      · rw [max_eq_right hnneg]

/-- Witness for `captureSprite_background_selection`: rect `(1500, 50, 200, 100)`
in a 1920-wide frame; the right shift `1500 + 300` would end at `2000 > 1920`,
so the patch comes from the left at `x = 1200`. -/
theorem captureSprite_background_selection_witness :
    ∃ c : SpriteCapture,
      captureSprite ⟨1500, 50, 200, 100⟩ 1920 = some c ∧
      c.patchX = 1200 ∧ c.patchY = 50 ∧ c.patchW = c.spriteW := by
  obtain ⟨c, h1, h2, -, h4, -, -, -, h8⟩ :=
    captureSprite_background_selection ⟨1500, 50, 200, 100⟩ 1920
      (by norm_num) (by norm_num) (by norm_num)
  refine ⟨c, h1, ?_, h4, h2⟩
  have : c.patchX = max 0 ((1500 : ℚ) - (⌈(200 : ℚ)⌉ : ℚ) * 1.5) := by
    apply h8
    norm_num
  rw [this]
  norm_num

end BoltTryStream

namespace BoltTryStream

/-- The player-move phase variable `playerMoveState` of the source. -/
inductive PMState
  | idle | selecting | moving
deriving DecidableEq, Repr

/-- The state written by the `playerMoveState === 'selecting'` branch of
`finishDrawing` (source lines 1929-1951), plus the shape it passes to
`addShape` (always none in this branch: the shape is only created later, in
the `'moving'` phase). -/
structure PlayerSelectResult where
  playerMoveState : PMState
  capturedSprite : Option SpriteCapture
  playerSelectionRect : Option Rect
  emitted : Option Shape
deriving DecidableEq, Repr

/-- Embeds the `'selecting'` pointer-up branch of `finishDrawing` (source
lines 1929-1951): drag extents below 10 in either axis cancel back to idle;
otherwise the drag rectangle is normalized and `captureSprite` runs — on
success the machine moves to `'moving'` holding the capture, on failure back
to idle with the previous capture untouched. `prevCaptured` is the
`capturedSprite` state before the event. -/
def finishPlayerSelecting (selRect : Rect) (prevCaptured : Option SpriteCapture)
    (currentPoint : Point) (videoWidth : ℚ) : PlayerSelectResult :=
  let w := currentPoint.x - selRect.x
  let h := currentPoint.y - selRect.y
  if |w| < 10 ∨ |h| < 10 then
    { playerMoveState := .idle, capturedSprite := prevCaptured
      playerSelectionRect := none, emitted := none }
  else
    let finalRect : Rect :=
      { x := if w > 0 then selRect.x else currentPoint.x
        y := if h > 0 then selRect.y else currentPoint.y
        w := |w|, h := |h| }
    match captureSprite finalRect videoWidth with
    | some result =>
        { playerMoveState := .moving, capturedSprite := some result
          playerSelectionRect := none, emitted := none }
    | none =>
        { playerMoveState := .idle, capturedSprite := prevCaptured
          playerSelectionRect := none, emitted := none }

/-- A capture with positive rect extents always yields a capture record. -/
theorem captureSprite_isSome (rect : Rect) (videoWidth : ℚ)
    (hw : 0 < rect.w) (hh : 0 < rect.h) :
    ∃ c, captureSprite rect videoWidth = some c := by
  have hcond : ¬ ((⌈rect.w⌉ : ℤ) ≤ 0 ∨ (⌈rect.h⌉ : ℤ) ≤ 0) := by
    push_neg
    exact ⟨Int.ceil_pos.mpr hw, Int.ceil_pos.mpr hh⟩
  cases h : captureSprite rect videoWidth with
  | some c => exact ⟨c, rfl⟩
  | none =>
      simp only [captureSprite, if_neg hcond] at h
      exact absurd h (by simp)

/-- C8: in the player-move selecting phase, a pointer-up whose drag rectangle
is at least 10 video-space units in both axes triggers sprite capture and
moves the machine to `'moving'`; a pointer-up below the threshold in either
axis returns to idle with no shape emitted, no capture, and no change to any
shape history (a no-op cancellation, not an error). -/
theorem player_move_selecting_finish (selRect : Rect)
    (prevCaptured : Option SpriteCapture) (currentPoint : Point) (videoWidth : ℚ) :
    (10 ≤ |currentPoint.x - selRect.x| → 10 ≤ |currentPoint.y - selRect.y| →
      (finishPlayerSelecting selRect prevCaptured currentPoint videoWidth).playerMoveState
          = .moving ∧
      (∃ c, (finishPlayerSelecting selRect prevCaptured currentPoint
          videoWidth).capturedSprite = some c) ∧
      (finishPlayerSelecting selRect prevCaptured currentPoint videoWidth).emitted
          = none) ∧
    (|currentPoint.x - selRect.x| < 10 ∨ |currentPoint.y - selRect.y| < 10 →
      finishPlayerSelecting selRect prevCaptured currentPoint videoWidth =
        { playerMoveState := .idle, capturedSprite := prevCaptured
          playerSelectionRect := none, emitted := none } ∧
      (∀ hist : HistState,
        applyEmit hist (finishPlayerSelecting selRect prevCaptured currentPoint
            videoWidth).emitted = hist)) := by
  constructor
  · intro hw hh
    have hcond : ¬ (|currentPoint.x - selRect.x| < 10 ∨ |currentPoint.y - selRect.y| < 10) := by
      push_neg
      exact ⟨hw, hh⟩
    have hwpos : (0 : ℚ) < |currentPoint.x - selRect.x| := lt_of_lt_of_le (by norm_num) hw
    have hhpos : (0 : ℚ) < |currentPoint.y - selRect.y| := lt_of_lt_of_le (by norm_num) hh
    obtain ⟨c, hc⟩ := captureSprite_isSome
      { x := if currentPoint.x - selRect.x > 0 then selRect.x else currentPoint.x
        y := if currentPoint.y - selRect.y > 0 then selRect.y else currentPoint.y
        w := |currentPoint.x - selRect.x|, h := |currentPoint.y - selRect.y| }
      videoWidth hwpos hhpos
    simp only [finishPlayerSelecting, if_neg hcond, hc]
    exact ⟨trivial, ⟨c, rfl⟩, trivial⟩
  · intro hcond
    have h1 : finishPlayerSelecting selRect prevCaptured currentPoint videoWidth =
        { playerMoveState := .idle, capturedSprite := prevCaptured
          playerSelectionRect := none, emitted := none } := by
      simp only [finishPlayerSelecting, if_pos hcond]
    exact ⟨h1, fun hist => by rw [h1]; rfl⟩

end BoltTryStream

namespace BoltTryStream

/-- Witness for `player_move_selecting_finish`: a 100×80 drag from
`(100, 100)` to `(200, 180)` captures and transitions to moving; a 5-unit-wide
drag from the same anchor cancels back to idle. -/
theorem player_move_selecting_finish_witness :
    (finishPlayerSelecting ⟨100, 100, 0, 0⟩ none { x := 200, y := 180 } 1920).playerMoveState
        = .moving ∧
    finishPlayerSelecting ⟨100, 100, 0, 0⟩ none { x := 105, y := 180 } 1920 =
      { playerMoveState := .idle, capturedSprite := none
        playerSelectionRect := none, emitted := none } := by
  constructor
  · exact ((player_move_selecting_finish ⟨100, 100, 0, 0⟩ none { x := 200, y := 180 } 1920).1
      (by norm_num) (by norm_num)).1
  · exact ((player_move_selecting_finish ⟨100, 100, 0, 0⟩ none { x := 105, y := 180 } 1920).2
      (Or.inl (by norm_num))).1

/-- The React state atoms relevant to claim C9, one field per `useState` of
the source component. -/
structure AppState where
  tool : Option ToolType
  shapes : List Shape
  redoStack : List (List Shape)
  activePoints : List Point
  isDrawing : Bool
  currentDragStart : Option Point
  playerMoveState : PMState
  playerSelectionRect : Option Rect
  capturedSprite : Option SpriteCapture
  isPlaying : Bool
deriving DecidableEq, Repr

/-- Embeds the tool-button `onClick` (source lines 2749-2756, the
`viewMode === 'video'` path): it toggles `tool` (same id → `null`, else the
clicked id) and writes NOTHING else — the `masking` and non-`masking` branches
of the source are the same assignment. -/
def toolButtonClick (itemId : ToolType) (st : AppState) : AppState :=
  { st with tool := if st.tool = some itemId then none else some itemId }

/-- Embeds enabling playback: `setIsPlaying true` followed by the effect on
`[isPlaying]` (source lines 1130-1141), which clears the shape history, redo
stack and all transient interaction state when `isPlaying` is true. -/
def enablePlayback (st : AppState) : AppState :=
  { st with
    isPlaying := true
    shapes := []
    redoStack := []
    activePoints := []
    isDrawing := false
    currentDragStart := none
    playerMoveState := .idle
    playerSelectionRect := none
    capturedSprite := none }

/-- Embeds `clearAll` (source lines 2118-2127). -/
def clearAll (st : AppState) : AppState :=
  { st with
    shapes := []
    redoStack := []
    activePoints := []
    isDrawing := false
    currentDragStart := none
    playerMoveState := .idle
    playerSelectionRect := none
    capturedSprite := none }

/-- The transient interaction state is idle: no accumulated in-progress
points, not drawing, player-move machine idle, no pending selection rectangle,
no captured sprite, no drag start. -/
def transientIdle (st : AppState) : Prop :=
  st.activePoints = [] ∧ st.isDrawing = false ∧ st.playerMoveState = .idle ∧
    st.playerSelectionRect = none ∧ st.capturedSprite = none ∧
    st.currentDragStart = none

/-- A state mid-interaction: one accumulated polygon vertex while the polygon
tool is active. -/
def busyState : AppState :=
  { tool := some .polygon, shapes := [], redoStack := []
    activePoints := [{ x := 5, y := 5 }], isDrawing := false
    currentDragStart := none, playerMoveState := .idle
    playerSelectionRect := none, capturedSprite := none, isPlaying := false }

/-- C9 counterexample: switching the active tool does NOT reset the transient
interaction state — clicking the pen tool button while `busyState` holds an
accumulated in-progress point leaves that point in place, so the state after
the switch is not idle. The claim's other two operations do reset (see
`transient_reset_amended`), but the tool-switch part fails on the code: the
tool button `onClick` only writes `tool`. -/
theorem tool_switch_does_not_reset :
    ¬ transientIdle (toolButtonClick .pen busyState) := by
  intro h
  have := h.1
  simp [toolButtonClick, busyState] at this

/-- C9 amended: enabling playback and a global clear reset the transient
interaction state to idle, but switching the active tool changes only `tool`
and leaves every transient interaction field exactly as it was. -/
theorem transient_reset_amended (st : AppState) (itemId : ToolType) :
    transientIdle (enablePlayback st) ∧
    transientIdle (clearAll st) ∧
    (toolButtonClick itemId st).activePoints = st.activePoints ∧
    (toolButtonClick itemId st).isDrawing = st.isDrawing ∧
    (toolButtonClick itemId st).playerMoveState = st.playerMoveState ∧
    (toolButtonClick itemId st).playerSelectionRect = st.playerSelectionRect ∧
    (toolButtonClick itemId st).capturedSprite = st.capturedSprite ∧
    (toolButtonClick itemId st).currentDragStart = st.currentDragStart := by
  refine ⟨?_, ?_, rfl, rfl, rfl, rfl, rfl, rfl⟩ <;>
    simp [transientIdle, enablePlayback, clearAll]

end BoltTryStream
